import Mathlib

/-!
Shallow embedding of the dembrandt design-token extractor (JS) in Lean 4.

Embedded source:
  * `index.js` — the CLI orchestrator with its headless→visible retry loop;
  * `lib/w3c-exporter.js` — `hexToW3CColor`, `toW3CDimension`,
    `sanitizeTokenName`, the six per-category export functions and
    `toW3CFormat`.

JS strings are modelled as Lean `String` (with char-level helpers on
`List Char`); JS numbers as `ℚ` wrapped in `Option` where `NaN` can occur
(`none` = NaN); JS objects as insertion-ordered association lists.
-/

/-- `haystack.includes(needle)` for JS strings (char-level). -/
def jsIncludes : List Char → List Char → Bool
  | [], sub => sub.isEmpty
  | c :: t, sub => List.isPrefixOf sub (c :: t) || jsIncludes t sub

/-- `s.replace('#','')`: JS `String.replace` with a string pattern removes
only the first occurrence. -/
def jsRemoveFirst (sub : List Char) : List Char → List Char
  | [] => []
  | c :: t =>
    if List.isPrefixOf sub (c :: t) then (c :: t).drop sub.length
    else c :: jsRemoveFirst sub t

/-- `s.trim()`. -/
def jsTrim (s : List Char) : List Char :=
  ((s.dropWhile Char.isWhitespace).reverse.dropWhile Char.isWhitespace).reverse

/-- `s.split('(')[0]`: the chars before the first `'('` (whole string if none). -/
def jsBeforeParen (s : List Char) : List Char :=
  s.takeWhile (fun c => c ≠ '(')

/-- Auxiliary for `split(/\s+/)` on a trimmed string: accumulates the current
field (reversed) and splits at whitespace runs. -/
def splitWsAux : List Char → List Char → List (List Char)
  | [], cur => [cur.reverse]
  | c :: t, cur =>
    if c.isWhitespace then
      if cur.isEmpty then splitWsAux t [] else cur.reverse :: splitWsAux t []
    else splitWsAux t (c :: cur)

/-- `s.trim().split(/\s+/)` (JS yields `['']` on the empty string). -/
def jsTrimSplitWs (s : List Char) : List (List Char) :=
  splitWsAux (jsTrim s) []

/-- Numeric value of a (nonempty) decimal-digit string, as produced by the
regex captures `(\d+)`. -/
def digitsVal (ds : List Char) : ℕ :=
  ds.foldl (fun a c => a * 10 + (c.toNat - 48)) 0

/-- Hex digit test (`[0-9a-fA-F]`). -/
def isHexDig (c : Char) : Bool :=
  c.isDigit || ('a' ≤ c && c ≤ 'f') || ('A' ≤ c && c ≤ 'F')

/-- Value of one hex digit. -/
def hexDigVal (c : Char) : ℕ :=
  if c.isDigit then c.toNat - 48
  else if 'a' ≤ c && c ≤ 'f' then c.toNat - 87
  else c.toNat - 55

/-- JS `parseFloat`: longest valid numeric prefix after whitespace/sign;
`none` models NaN.  Handles `d+[.d*]`, `.d+` and an optional exponent
(`parseFloat('1e')` ignores the dangling `e`, as in JS). -/
def jsParseFloat (s : List Char) : Option ℚ :=
  let s1 := s.dropWhile Char.isWhitespace
  let (neg, s2) : Bool × List Char :=
    match s1 with
    | '-' :: t => (true, t)
    | '+' :: t => (false, t)
    | t => (false, t)
  let (d1, r1) := s2.span Char.isDigit
  let (d2, r2) : List Char × List Char :=
    match r1 with
    | '.' :: t => t.span Char.isDigit
    | _ => ([], r1)
  if d1.isEmpty && d2.isEmpty then none
  else
    let base : ℚ := (digitsVal d1 : ℚ) + (digitsVal d2 : ℚ) / ((10 : ℚ) ^ d2.length)
    let withExp : ℚ :=
      match r2 with
      | 'e' :: t | 'E' :: t =>
        let (eneg, t2) : Bool × List Char :=
          match t with
          | '-' :: u => (true, u)
          | '+' :: u => (false, u)
          | u => (false, u)
        let (ed, _) := t2.span Char.isDigit
        if ed.isEmpty then base
        else if eneg then base / ((10 : ℚ) ^ digitsVal ed)
        else base * ((10 : ℚ) ^ digitsVal ed)
      | _ => base
    some (if neg then -withExp else withExp)

/-- JS `parseInt(s)` (base 10): whitespace, sign, maximal digit prefix;
`none` models NaN. -/
def jsParseIntDec (s : List Char) : Option ℤ :=
  let s1 := s.dropWhile Char.isWhitespace
  let (neg, s2) : Bool × List Char :=
    match s1 with
    | '-' :: t => (true, t)
    | '+' :: t => (false, t)
    | t => (false, t)
  let (ds, _) := s2.span Char.isDigit
  if ds.isEmpty then none
  else some (if neg then -(digitsVal ds : ℤ) else (digitsVal ds : ℤ))

/-- JS `parseInt(s, 16)`: whitespace, sign, optional `0x`/`0X`, maximal hex
digit prefix; `none` models NaN. -/
def jsParseIntHex (s : List Char) : Option ℤ :=
  let s1 := s.dropWhile Char.isWhitespace
  let (neg, s2) : Bool × List Char :=
    match s1 with
    | '-' :: t => (true, t)
    | '+' :: t => (false, t)
    | t => (false, t)
  let s3 : List Char :=
    match s2 with
    | '0' :: 'x' :: t => t
    | '0' :: 'X' :: t => t
    | _ => s2
  let (ds, _) := s3.span isHexDig
  if ds.isEmpty then none
  else
    let v : ℕ := ds.foldl (fun a c => a * 16 + hexDigVal c) 0
    some (if neg then -(v : ℤ) else (v : ℤ))

/-- `n.toString(16)` for a natural number (lowercase hex digits). -/
def natToHexStr (n : ℕ) : List Char :=
  Nat.toDigits 16 n

/-- `.padStart(2, '0')`. -/
def padStart2 (s : List Char) : List Char :=
  if s.length < 2 then List.replicate (2 - s.length) '0' ++ s else s

/-- Floor of a rational, computed on the normalized fraction (the
denominator is positive, so floor division of `num` by `den` is `⌊q⌋`). -/
def ratFloor (q : ℚ) : ℤ := Int.fdiv q.num (q.den : ℤ)

/-- JS `Math.round`: nearest integer, ties toward `+∞`, i.e. `⌊x + 1/2⌋`. -/
def jsRound (q : ℚ) : ℤ := ratFloor (q + 1 / 2)

/-- `Math.round(q * 1000) / 1000` — round to three decimal places. -/
def round3 (q : ℚ) : ℚ := (jsRound (q * 1000) : ℚ) / 1000

/-- `round3` lifted over a possibly-NaN number (`Math.round(NaN) = NaN`). -/
def round3Opt : Option ℚ → Option ℚ := Option.map round3

/-! ## The two colour regexes of `hexToW3CColor`

`/rgba?\((\d+),\s*(\d+),\s*(\d+)(?:,\s*([\d.]+))?\)/` and
`/rgb\((\d+),\s*(\d+),\s*(\d+)\)/`, both unanchored (leftmost match).
The character classes involved are pairwise disjoint, so greedy matching
without backtracking is equivalent to the JS engine's behaviour. -/

/-- Captures of the rgba regex: the three digit groups and the optional
alpha group (`[\d.]+`). -/
structure RgbaCaps where
  d1 : List Char
  d2 : List Char
  d3 : List Char
  aTok : Option (List Char)
deriving DecidableEq, Repr

/-- Matches `(\d+),\s*(\d+),\s*(\d+)` right after the opening paren; returns
the three digit groups and the rest of the input. -/
def matchTriple (s : List Char) : Option (List Char × List Char × List Char × List Char) :=
  let (d1, r1) := s.span Char.isDigit
  if d1.isEmpty then none
  else
    match r1 with
    | ',' :: r1t =>
      let r1s := r1t.dropWhile Char.isWhitespace
      let (d2, r2) := r1s.span Char.isDigit
      if d2.isEmpty then none
      else
        match r2 with
        | ',' :: r2t =>
          let r2s := r2t.dropWhile Char.isWhitespace
          let (d3, r3) := r2s.span Char.isDigit
          if d3.isEmpty then none else some (d1, d2, d3, r3)
        | _ => none
    | _ => none

/-- Attempts the rgba regex at the start of the input. -/
def matchRgbaAt (s : List Char) : Option RgbaCaps :=
  match s with
  | 'r' :: 'g' :: 'b' :: rest =>
    let afterParen : Option (List Char) :=
      match rest with
      | 'a' :: '(' :: r => some r
      | '(' :: r => some r
      | _ => none
    match afterParen with
    | none => none
    | some r =>
      match matchTriple r with
      | none => none
      | some (d1, d2, d3, r3) =>
        match r3 with
        | ')' :: _ => some ⟨d1, d2, d3, none⟩
        | ',' :: r4 =>
          let r4s := r4.dropWhile Char.isWhitespace
          let (a, r5) := r4s.span (fun c => c.isDigit || c = '.')
          if a.isEmpty then none
          else
            match r5 with
            | ')' :: _ => some ⟨d1, d2, d3, some a⟩
            | _ => none
        | _ => none
  | _ => none

/-- Leftmost match of the rgba regex anywhere in the input. -/
def searchRgba : List Char → Option RgbaCaps
  | [] => none
  | c :: t =>
    match matchRgbaAt (c :: t) with
    | some r => some r
    | none => searchRgba t

/-- Attempts the rgb regex (`rgb\(` exactly, no optional `a`) at the start. -/
def matchRgbAt (s : List Char) : Option (List Char × List Char × List Char) :=
  match s with
  | 'r' :: 'g' :: 'b' :: '(' :: r =>
    match matchTriple r with
    | none => none
    | some (d1, d2, d3, r3) =>
      match r3 with
      | ')' :: _ => some (d1, d2, d3)
      | _ => none
  | _ => none

/-- Leftmost match of the rgb regex anywhere in the input. -/
def searchRgb : List Char → Option (List Char × List Char × List Char)
  | [] => none
  | c :: t =>
    match matchRgbAt (c :: t) with
    | some r => some r
    | none => searchRgb t

/-! ## `hexToW3CColor` -/

/-- A W3C DTCG colour object as built by `hexToW3CColor`.  `components`
holds possibly-NaN numbers (`none` = NaN); `alpha = none` means the field
is absent, `alpha = some a` that the key is present with value `a`
(itself `none` when the value is NaN). -/
structure W3CColor where
  colorSpace : String
  components : List (Option ℚ)
  hex : String
  alpha : Option (Option ℚ)
deriving DecidableEq, Repr

/-- `#rrggbb` built from the three parsed decimal components
(`parseInt(m).toString(16).padStart(2,'0')`). -/
def hexOfTriple (n1 n2 n3 : ℕ) : String :=
  String.mk ('#' :: (padStart2 (natToHexStr n1) ++ padStart2 (natToHexStr n2)
    ++ padStart2 (natToHexStr n3)))

/-- The rounded sRGB components `[round3(n/255), …]` for parsed decimal
channel values. -/
def componentsOfTriple (n1 n2 n3 : ℕ) : List (Option ℚ) :=
  [some (round3 ((n1 : ℚ) / 255)), some (round3 ((n2 : ℚ) / 255)),
   some (round3 ((n3 : ℚ) / 255))]

/-- The guard of the first branch of `hexToW3CColor`:
`color.includes('rgba')` and the rgba regex matches. -/
def rgbaMatchOf (color : String) : Option RgbaCaps :=
  if jsIncludes color.data "rgba".data then searchRgba color.data else none

/-- The guard of the second branch of `hexToW3CColor`:
`color.includes('rgb')` and the rgb regex matches. -/
def rgbMatchOf (color : String) : Option (List Char × List Char × List Char) :=
  if jsIncludes color.data "rgb".data then searchRgb color.data else none

/-- `hexToW3CColor(color, alpha = 1)` from `lib/w3c-exporter.js`.
The `alpha` argument is `Option ℚ` with `none` = NaN; every call site in
the repository uses the default `some 1`. -/
def hexToW3CColor (color : String) (alpha : Option ℚ := some 1) : W3CColor :=
  -- rgba(r, g, b, a) branch
  match rgbaMatchOf color with
  | some caps =>
    let n1 := digitsVal caps.d1
    let n2 := digitsVal caps.d2
    let n3 := digitsVal caps.d3
    let alpha' : Option ℚ :=
      match caps.aTok with
      | some tok => jsParseFloat tok
      | none => some 1
    { colorSpace := "srgb"
      components := componentsOfTriple n1 n2 n3
      hex := hexOfTriple n1 n2 n3
      alpha := if alpha' ≠ some 1 then some (round3Opt alpha') else none }
  | none =>
    -- rgb(r, g, b) branch: never emits an alpha field
    match rgbMatchOf color with
    | some (d1, d2, d3) =>
      let n1 := digitsVal d1
      let n2 := digitsVal d2
      let n3 := digitsVal d3
      { colorSpace := "srgb"
        components := componentsOfTriple n1 n2 n3
        hex := hexOfTriple n1 n2 n3
        alpha := none }
    | none =>
      -- hex branch
      let cleanHex := jsRemoveFirst ['#'] color.data
      if cleanHex.length ≠ 6 then
        { colorSpace := "srgb", components := [some 0, some 0, some 0],
          hex := "#000000", alpha := none }
      else
        let r := (jsParseIntHex (cleanHex.take 2)).map (fun z => (z : ℚ) / 255)
        let g := (jsParseIntHex ((cleanHex.drop 2).take 2)).map (fun z => (z : ℚ) / 255)
        let b := (jsParseIntHex ((cleanHex.drop 4).take 2)).map (fun z => (z : ℚ) / 255)
        { colorSpace := "srgb"
          components := [round3Opt r, round3Opt g, round3Opt b]
          hex := String.mk ('#' :: cleanHex)
          alpha := if alpha ≠ some 1 then some (round3Opt alpha) else none }

set_option maxRecDepth 4000 in
example : hexToW3CColor "rgb(255, 0, 0)" =
    ⟨"srgb", [some 1, some 0, some 0], "#ff0000", none⟩ := by with_unfolding_all decide

set_option maxRecDepth 4000 in
example : hexToW3CColor "rgba(255, 0, 0, 0.5)" =
    ⟨"srgb", [some 1, some 0, some 0], "#ff0000", some (some (1/2))⟩ := by with_unfolding_all decide

set_option maxRecDepth 4000 in
example : hexToW3CColor "#fff" =
    ⟨"srgb", [some 0, some 0, some 0], "#000000", none⟩ := by with_unfolding_all decide

set_option maxRecDepth 4000 in
example : hexToW3CColor "#102030" =
    ⟨"srgb", [some (63/1000), some (125/1000), some (188/1000)], "#102030", none⟩ := by with_unfolding_all decide

/-! ## `toW3CDimension` and `sanitizeTokenName` -/

/-- A JS value that can reach `toW3CDimension` or a spacing entry: a string,
a number, or an object with a `px` field. -/
inductive DimValue where
  | str (s : String)
  | num (q : ℚ)
  | objPx (px : ℚ)
deriving DecidableEq, Repr

/-- JS truthiness of a `DimValue` (`''` and `0` are falsy, objects truthy). -/
def dimTruthy : DimValue → Bool
  | .str s => !s.isEmpty
  | .num q => q != 0
  | .objPx _ => true

/-- The anchored dimension regex `/^([-\d.]+)\s*([a-z%]*)$/i` of
`toW3CDimension`; its character classes are pairwise disjoint, so greedy
spans without backtracking are equivalent to the JS engine. -/
def matchDimRegex (s : List Char) : Option (List Char × List Char) :=
  let (m1, r1) := s.span (fun c => c.isDigit || c = '.' || c = '-')
  if m1.isEmpty then none
  else
    let r2 := r1.dropWhile Char.isWhitespace
    let (m2, r3) := r2.span (fun c => ('a' ≤ c && c ≤ 'z') || ('A' ≤ c && c ≤ 'Z') || c = '%')
    if r3.isEmpty then some (m1, m2) else none

/-- A W3C dimension value (`value = none` models NaN). -/
structure W3CDim where
  value : Option ℚ
  unit : String
deriving DecidableEq, Repr

/-- `toW3CDimension(value)` from `lib/w3c-exporter.js`.  On a string, takes
the part before any `'('`, trims it, and applies the dimension regex; on a
regex miss it falls through to the final `parseFloat(value) || 0` fallback
(a string has no `px` property). -/
def toW3CDimension : DimValue → W3CDim
  | .str s =>
    let cleanValue := jsTrim (jsBeforeParen s.data)
    match matchDimRegex cleanValue with
    | some (m1, m2) =>
      { value := jsParseFloat m1
        unit := if m2.isEmpty then "px" else String.mk m2 }
    | none => { value := some ((jsParseFloat s.data).getD 0), unit := "px" }
  | .num q => { value := some q, unit := "px" }
  | .objPx p => { value := some p, unit := "px" }

/-- The `'{'` character (written via its code point). -/
def lbraceChar : Char := Char.ofNat 123

/-- The `'}'` character (written via its code point). -/
def rbraceChar : Char := Char.ofNat 125

/-- `.replace(/^\$/, '')`. -/
def dropLeadingDollar : List Char → List Char
  | '$' :: t => t
  | s => s

/-- `.replace(/[{}.]/g, '-')`: each brace or dot becomes one `'-'`. -/
def punctToDash (s : List Char) : List Char :=
  s.map (fun c => if c = lbraceChar || c = rbraceChar || c = '.' then '-' else c)

/-- `.replace(/\s+/g, '-')`: each whitespace run becomes one `'-'`; the
flag records whether the previous char was whitespace. -/
def wsRunsToDash : List Char → Bool → List Char
  | [], _ => []
  | c :: t, inRun =>
    if c.isWhitespace then
      if inRun then wsRunsToDash t true else '-' :: wsRunsToDash t true
    else c :: wsRunsToDash t false

/-- `sanitizeTokenName(name)` from `lib/w3c-exporter.js`. -/
def sanitizeTokenName (name : String) : String :=
  String.mk ((wsRunsToDash (punctToDash (dropLeadingDollar name.data)) false).map Char.toLower)

/-- `s || d` for a JS string. -/
def jsOrStr (s d : String) : String := if s.isEmpty then d else s

/-- `o || d` for a possibly-undefined JS string. -/
def jsOrOptStr (o : Option String) (d : String) : String :=
  match o with
  | some s => if s.isEmpty then d else s
  | none => d

/-- `arr.slice(0, n)`. -/
def jsSlice {α : Type} (n : ℕ) (l : List α) : List α := l.take n

/-- A JS object as an insertion-ordered association list. -/
abbrev JsObj (V : Type) := List (String × V)

/-- JS property assignment `ob[k] = v`: updates in place when the key
exists (keeping its position), otherwise appends. -/
def objInsert {V : Type} (ob : JsObj V) (k : String) (v : V) : JsObj V :=
  if ob.any (fun p => p.1 == k) then
    ob.map (fun p => if p.1 == k then (k, v) else p)
  else ob ++ [(k, v)]

/-! ## `exportColors` -/

/-- A value of the `colors.semantic` map: a colour string, or an object
with an optional `color` property. -/
inductive SemValue where
  | strv (s : String)
  | objv (color : Option String)
deriving DecidableEq, Repr

/-- One entry of `colors.palette`. -/
structure PaletteEntry where
  color : String
  normalized : Option String
  count : Option ℕ
  confidence : Option String
deriving DecidableEq, Repr

/-- The `colors` bundle consumed by `exportColors`. -/
structure ColorsInput where
  palette : Option (List PaletteEntry)
  semantic : Option (JsObj (Option SemValue))
deriving DecidableEq, Repr

/-- A colour token (`$type` / `$value` / optional `$description`). -/
structure ColorTok where
  ty : String
  value : W3CColor
  descr : Option String
deriving DecidableEq, Repr

/-- The result object of `exportColors`: optional `semantic` and
`palette` keys. -/
structure ColorTokensObj where
  semantic : Option (JsObj ColorTok)
  palette : Option (JsObj ColorTok)
deriving DecidableEq, Repr

/-- The palette filter `colorEntry => colorEntry.confidence !== 'low'`. -/
def keepNonLowPal (e : PaletteEntry) : Bool := e.confidence != some "low"

/-- One palette token at rank `i` (`palette-${index+1}` naming and the
`Count/Confidence` description, with JS `|| 0` and `|| 'unknown'`). -/
def mkPaletteTok (i : ℕ) (e : PaletteEntry) : String × ColorTok :=
  ("palette-" ++ toString (i + 1),
   { ty := "color", value := hexToW3CColor e.color
     descr := some ("Count: " ++ toString (e.count.getD 0) ++ ", Confidence: "
       ++ jsOrOptStr e.confidence "unknown") })

/-- One `Object.entries(colors.semantic)` iteration: skips falsy values
(null, `''`), reads `value` or `value.color`, and skips falsy colours. -/
def semStep (acc : JsObj ColorTok) (kv : String × Option SemValue) : JsObj ColorTok :=
  match kv.2 with
  | none => acc
  | some (SemValue.strv s) =>
    if s.isEmpty then acc
    else objInsert acc (sanitizeTokenName kv.1) { ty := "color", value := hexToW3CColor s, descr := none }
  | some (SemValue.objv c) =>
    match c with
    | some cv =>
      if cv.isEmpty then acc
      else objInsert acc (sanitizeTokenName kv.1) { ty := "color", value := hexToW3CColor cv, descr := none }
    | none => acc

/-- `exportColors(colors)` from `lib/w3c-exporter.js`. -/
def exportColors (colors : Option ColorsInput) : Option ColorTokensObj :=
  match colors with
  | none => none
  | some cs =>
    match cs.palette with
    | none => none
    | some pal =>
      if pal.isEmpty then none
      else
        let semObj : JsObj ColorTok :=
          match cs.semantic with
          | none => []
          | some entries => entries.foldl semStep []
        let palObj : JsObj ColorTok :=
          (jsSlice 30 (pal.filter keepNonLowPal)).enum.map (fun p => mkPaletteTok p.1 p.2)
        let result : ColorTokensObj :=
          { semantic := if semObj.isEmpty then none else some semObj
            palette := if palObj.isEmpty then none else some palObj }
        if result.semantic.isNone && result.palette.isNone then none else some result

/-! ## `exportTypography` -/

/-- A JS value that is either a number or a string. -/
inductive NumStr where
  | num (q : ℚ)
  | str (s : String)
deriving DecidableEq, Repr

/-- JS truthiness of a `NumStr`. -/
def numStrTruthy : NumStr → Bool
  | .num q => q != 0
  | .str s => !s.isEmpty

/-- One entry of `typography.styles`. -/
structure TypStyle where
  family : Option String
  size : Option DimValue
  weight : Option NumStr
  lineHeight : Option NumStr
  letterSpacing : Option DimValue
  context : Option String
deriving DecidableEq, Repr

/-- The `typography` bundle consumed by `exportTypography`. -/
structure TypographyInput where
  styles : Option (List TypStyle)
deriving DecidableEq, Repr

/-- `typeof weight === 'number' ? weight : parseInt(weight) || 400`. -/
def fontWeightVal : NumStr → ℚ
  | .num q => q
  | .str s =>
    match jsParseIntDec s.data with
    | some z => if z ≠ 0 then (z : ℚ) else 400
    | none => 400

/-- `parseFloat(lineHeight) || 1.5`. -/
def lineHeightVal : NumStr → ℚ
  | .num q => if q ≠ 0 then q else 3 / 2
  | .str s =>
    match jsParseFloat s.data with
    | some q => if q ≠ 0 then q else 3 / 2
    | none => 3 / 2

/-- A font-family token. -/
structure FontFamilyTok where
  ty : String
  value : String
deriving DecidableEq, Repr

/-- A dimension token (`$type` / `$value`). -/
structure DimTok where
  ty : String
  value : W3CDim
deriving DecidableEq, Repr

/-- A font-weight token. -/
structure FontWeightTok where
  ty : String
  value : ℚ
deriving DecidableEq, Repr

/-- A number token. -/
structure NumberTok where
  ty : String
  value : ℚ
deriving DecidableEq, Repr

/-- The `$value` of a composite typography token. -/
structure TypValue where
  fontFamily : Option String
  fontSize : Option DimTok
  fontWeight : Option FontWeightTok
  lineHeight : Option NumberTok
  letterSpacing : Option DimTok
deriving DecidableEq, Repr

/-- A composite typography token. -/
structure TypTok where
  ty : String
  value : TypValue
deriving DecidableEq, Repr

/-- The result object of `exportTypography`: optional `font-family` and
`style` keys. -/
structure TypographyTokensObj where
  fontFamily : Option (JsObj FontFamilyTok)
  style : Option (JsObj TypTok)
deriving DecidableEq, Repr

/-- JS `Set.add` on an insertion-ordered list of strings. -/
def setAdd (l : List String) (s : String) : List String :=
  if l.contains s then l else l ++ [s]

/-- The `uniqueFamilies` collection loop of `exportTypography`. -/
def collectFamilies (styles : List TypStyle) : List String :=
  styles.foldl (fun acc st =>
    match st.family with
    | some f => if f.isEmpty then acc else setAdd acc f
    | none => acc) []

/-- Builds the `font-family` token group (name collisions after
sanitization follow JS object-assignment semantics). -/
def mkFontFamilies (fams : List String) : JsObj FontFamilyTok :=
  fams.enum.foldl (fun ob p =>
    objInsert ob (jsOrStr (sanitizeTokenName p.2) ("font-" ++ toString (p.1 + 1)))
      { ty := "fontFamily", value := p.2 }) []

/-- One text-style token of `exportTypography` at slice index `i`. -/
def mkTextStyleTok (i : ℕ) (st : TypStyle) : String × TypTok :=
  let name : String :=
    match st.context with
    | some c => if c.isEmpty then "text-" ++ toString (i + 1) else "text-" ++ sanitizeTokenName c
    | none => "text-" ++ toString (i + 1)
  (name,
   { ty := "typography"
     value :=
      { fontFamily :=
          match st.family with
          | some f =>
            if f.isEmpty then none
            else some ("\x7btypography.font-family."
              ++ jsOrStr (sanitizeTokenName f) ("font-" ++ toString (i + 1)) ++ "\x7d")
          | none => none
        fontSize :=
          match st.size with
          | some sz =>
            if dimTruthy sz then some { ty := "dimension", value := toW3CDimension sz } else none
          | none => none
        fontWeight :=
          match st.weight with
          | some w =>
            if numStrTruthy w then some { ty := "fontWeight", value := fontWeightVal w } else none
          | none => none
        lineHeight :=
          match st.lineHeight with
          | some lh =>
            if numStrTruthy lh then some { ty := "number", value := lineHeightVal lh } else none
          | none => none
        letterSpacing :=
          match st.letterSpacing with
          | some ls =>
            if dimTruthy ls then some { ty := "dimension", value := toW3CDimension ls } else none
          | none => none } })

/-- `exportTypography(typography)` from `lib/w3c-exporter.js`. -/
def exportTypography (typography : Option TypographyInput) : Option TypographyTokensObj :=
  match typography with
  | none => none
  | some ti =>
    match ti.styles with
    | none => none
    | some styles =>
      if styles.isEmpty then none
      else
        let fams := collectFamilies styles
        let textStyles : JsObj TypTok :=
          (jsSlice 10 styles).enum.foldl (fun ob p =>
            let nt := mkTextStyleTok p.1 p.2
            objInsert ob nt.1 nt.2) []
        let result : TypographyTokensObj :=
          { fontFamily := if fams.isEmpty then none else some (mkFontFamilies fams)
            style := if textStyles.isEmpty then none else some textStyles }
        if result.fontFamily.isNone && result.style.isNone then none else some result

/-! ## `exportSpacing`, `exportBorderRadius`, `exportBorders`, `exportShadows` -/

/-- The `spacing` bundle consumed by `exportSpacing`. -/
structure SpacingInput where
  commonValues : Option (List DimValue)
deriving DecidableEq, Repr

/-- `value.px || value` in `exportSpacing`. -/
def spacingArg (v : DimValue) : DimValue :=
  match v with
  | .objPx p => if p ≠ 0 then .num p else v
  | _ => v

/-- `exportSpacing(spacing)` from `lib/w3c-exporter.js`. -/
def exportSpacing (spacing : Option SpacingInput) : Option (JsObj DimTok) :=
  match spacing with
  | none => none
  | some si =>
    match si.commonValues with
    | none => none
    | some vals =>
      if vals.isEmpty then none
      else
        let toks : JsObj DimTok :=
          (jsSlice 12 vals).enum.map (fun p =>
            ("spacing-" ++ toString (p.1 + 1),
             { ty := "dimension", value := toW3CDimension (spacingArg p.2) }))
        if toks.isEmpty then none else some toks

/-- One entry of `borderRadius.values`. -/
structure RadiusEntry where
  value : DimValue
  confidence : Option String
deriving DecidableEq, Repr

/-- The `borderRadius` bundle consumed by `exportBorderRadius`. -/
structure BorderRadiusInput where
  values : Option (List RadiusEntry)
deriving DecidableEq, Repr

/-- The radius filter `entry => entry.confidence !== 'low'`. -/
def keepNonLowRad (e : RadiusEntry) : Bool := e.confidence != some "low"

/-- `exportBorderRadius(borderRadius)` from `lib/w3c-exporter.js`. -/
def exportBorderRadius (borderRadius : Option BorderRadiusInput) : Option (JsObj DimTok) :=
  match borderRadius with
  | none => none
  | some bi =>
    match bi.values with
    | none => none
    | some vals =>
      if vals.isEmpty then none
      else
        let toks : JsObj DimTok :=
          (jsSlice 6 (vals.filter keepNonLowRad)).enum.map (fun p =>
            ("radius-" ++ toString (p.1 + 1),
             { ty := "dimension", value := toW3CDimension p.2.value }))
        if toks.isEmpty then none else some toks

/-- One entry of `borders.combinations`. -/
structure BorderCombo where
  width : Option String
  styleName : Option String
  color : Option String
  confidence : Option String
deriving DecidableEq, Repr

/-- The `borders` bundle consumed by `exportBorders`. -/
structure BordersInput where
  combinations : Option (List BorderCombo)
deriving DecidableEq, Repr

/-- A colour token without description (border colours). -/
structure ColorValTok where
  ty : String
  value : W3CColor
deriving DecidableEq, Repr

/-- The result object of `exportBorders`: optional `width` and `color` keys. -/
structure BorderTokensObj where
  width : Option (JsObj DimTok)
  color : Option (JsObj ColorValTok)
deriving DecidableEq, Repr

/-- The borders filter `combo => combo.confidence !== 'low'`. -/
def keepNonLowCombo (c : BorderCombo) : Bool := c.confidence != some "low"

/-- The running state of the `exportBorders` forEach: the two token
objects and the two `Set`s of seen widths/colours. -/
structure BordersSt where
  widths : JsObj DimTok
  seenWidths : List String
  colors : JsObj ColorValTok
  seenColors : List String
deriving DecidableEq, Repr

/-- One iteration of the `exportBorders` forEach: adds the combo's width
and colour if truthy and unseen (index = set size before adding). -/
def bordersStep (st : BordersSt) (combo : BorderCombo) : BordersSt :=
  let st1 :=
    match combo.width with
    | some w =>
      if !w.isEmpty && !st.seenWidths.contains w then
        { st with
          widths := objInsert st.widths ("border-width-" ++ toString (st.seenWidths.length + 1))
            { ty := "dimension", value := toW3CDimension (.str w) }
          seenWidths := st.seenWidths ++ [w] }
      else st
    | none => st
  match combo.color with
  | some c =>
    if !c.isEmpty && !st1.seenColors.contains c then
      { st1 with
        colors := objInsert st1.colors ("border-color-" ++ toString (st1.seenColors.length + 1))
          { ty := "color", value := hexToW3CColor c }
        seenColors := st1.seenColors ++ [c] }
    else st1
  | none => st1

/-- `exportBorders(borders)` from `lib/w3c-exporter.js`. -/
def exportBorders (borders : Option BordersInput) : Option BorderTokensObj :=
  match borders with
  | none => none
  | some bi =>
    match bi.combinations with
    | none => none
    | some combos =>
      if combos.isEmpty then none
      else
        let st := (jsSlice 10 (combos.filter keepNonLowCombo)).foldl bordersStep ⟨[], [], [], []⟩
        let result : BorderTokensObj :=
          { width := if st.widths.isEmpty then none else some st.widths
            color := if st.colors.isEmpty then none else some st.colors }
        if result.width.isNone && result.color.isNone then none else some result

/-- One entry of the `shadows` list. -/
structure ShadowEntry where
  shadow : String
  confidence : Option String
deriving DecidableEq, Repr

/-- The shadows filter `entry => entry.confidence !== 'low'`. -/
def keepNonLowShadow (e : ShadowEntry) : Bool := e.confidence != some "low"

/-- The `$value` of a shadow token. -/
structure ShadowValue where
  offsetX : W3CDim
  offsetY : W3CDim
  blur : W3CDim
  spreadDim : W3CDim
  color : W3CColor
deriving DecidableEq, Repr

/-- A shadow token. -/
structure ShadowTok where
  ty : String
  value : ShadowValue
deriving DecidableEq, Repr

/-- `parts[i] || '0px'`. -/
def partOr0px (parts : List (List Char)) (i : ℕ) : String :=
  match parts.get? i with
  | some p => if p.isEmpty then "0px" else String.mk p
  | none => "0px"

/-- The anchored test `/^#[0-9a-fA-F]{6}$/`. -/
def isHex6 (p : List Char) : Bool :=
  match p with
  | '#' :: rest => rest.length == 6 && rest.all isHexDig
  | _ => false

/-- One shadow token of `exportShadows` at slice index `i`: splits the raw
declaration on whitespace and reads offsets/blur/spread/colour. -/
def mkShadowTok (i : ℕ) (e : ShadowEntry) : String × ShadowTok :=
  let parts := jsTrimSplitWs e.shadow.data
  let shadowColor : String :=
    match parts.get? 4 with
    | some p => if isHex6 p then String.mk p else "#000000"
    | none => "#000000"
  ("shadow-" ++ toString (i + 1),
   { ty := "shadow"
     value :=
      { offsetX := toW3CDimension (.str (partOr0px parts 0))
        offsetY := toW3CDimension (.str (partOr0px parts 1))
        blur := toW3CDimension (.str (partOr0px parts 2))
        spreadDim := toW3CDimension (.str (partOr0px parts 3))
        color := hexToW3CColor shadowColor } })

/-- `exportShadows(shadows)` from `lib/w3c-exporter.js`. -/
def exportShadows (shadows : Option (List ShadowEntry)) : Option (JsObj ShadowTok) :=
  match shadows with
  | none => none
  | some sl =>
    if sl.isEmpty then none
    else
      let toks : JsObj ShadowTok :=
        (jsSlice 6 (sl.filter keepNonLowShadow)).enum.map (fun p => mkShadowTok p.1 p.2)
      if toks.isEmpty then none else some toks

/-! ## `toW3CFormat` -/

/-- The extraction result record consumed by `toW3CFormat`. -/
structure ExtractionResult where
  url : String
  extractedAt : String
  logo : Option String
  colors : Option ColorsInput
  typography : Option TypographyInput
  spacing : Option SpacingInput
  borderRadius : Option BorderRadiusInput
  borders : Option BordersInput
  shadows : Option (List ShadowEntry)
deriving DecidableEq, Repr

/-- The W3C token document built by `toW3CFormat`: the `$extensions`
metadata and one optional key per category. -/
structure W3CTokens where
  extUrl : String
  extDomain : String
  extExtractedAt : String
  color : Option ColorTokensObj
  typography : Option TypographyTokensObj
  spacing : Option (JsObj DimTok)
  radius : Option (JsObj DimTok)
  border : Option BorderTokensObj
  shadow : Option (JsObj ShadowTok)
deriving DecidableEq, Repr

/-- `toW3CFormat(extractionResult)` from `lib/w3c-exporter.js`.
`hostname` abstracts the external `new URL(url).hostname` (Node's URL
parser, an out-of-scope collaborator); `none` models the constructor
throwing on an invalid URL, which aborts `toW3CFormat` with the
exception. -/
def toW3CFormat (hostname : String → Option String) (res : ExtractionResult) :
    Except Unit W3CTokens :=
  let dom : Except Unit String :=
    if res.url.isEmpty then Except.ok "unknown"
    else
      match hostname res.url with
      | some h => Except.ok (String.mk (jsRemoveFirst "www.".data h.data))
      | none => Except.error ()
  match dom with
  | Except.error e => Except.error e
  | Except.ok d =>
    Except.ok
      { extUrl := res.url, extDomain := d, extExtractedAt := res.extractedAt
        color := exportColors res.colors
        typography := exportTypography res.typography
        spacing := exportSpacing res.spacing
        radius := exportBorderRadius res.borderRadius
        border := exportBorders res.borders
        shadow := exportShadows res.shadows }

/-! ## The retry loop of `index.js`

The `while (true)` loop launches a browser (headless first), calls
`extractBranding`, and on failure closes the browser and either rethrows
or retries once in visible mode.  The environment `env : Bool → Except
String R` gives the outcome of one extraction attempt in the given mode
(`true` = visible/headed), with the thrown error's `message` as the error
value. -/

/-- `err.message.includes("Timeout") || err.message.includes("net::ERR_")`
— the navigation/timeout-class test of `index.js`. -/
def isNavErrorMsg (msg : String) : Bool :=
  jsIncludes msg.data "Timeout".data || jsIncludes msg.data "net::ERR_".data

/-- The retry loop of `index.js` (lines 47–88), starting from the given
`useHeaded` flag: on success break with the result; on failure, rethrow
if already headed, retry headed if the error is navigation/timeout-class,
otherwise rethrow. -/
def retryLoop {R : Type} (env : Bool → Except String R) (useHeaded : Bool) :
    Except String R :=
  match env useHeaded with
  | Except.ok r => Except.ok r
  | Except.error e =>
    if h : useHeaded then Except.error e
    else if isNavErrorMsg e then retryLoop env true
    else Except.error e
termination_by (if useHeaded then 0 else 1)
decreasing_by simp [h]

/-- The sequence of modes attempted by the retry loop (`false` =
headless, `true` = visible), in order. -/
def retryTrace {R : Type} (env : Bool → Except String R) (useHeaded : Bool) :
    List Bool :=
  match env useHeaded with
  | Except.ok _ => [useHeaded]
  | Except.error e =>
    if h : useHeaded then [useHeaded]
    else if isNavErrorMsg e then useHeaded :: retryTrace env true
    else [useHeaded]
termination_by (if useHeaded then 0 else 1)
decreasing_by simp [h]

/-! ## Slow-mode timeout scaling -/

/-- The wait/timeout constants of one extraction run: navigation timeout,
hydration wait and stabilization wait. -/
structure ExtractTimeouts where
  navigation : ℕ
  hydration : ℕ
  stabilization : ℕ
deriving DecidableEq, Repr

/-- Modelled from the spec: the extractor module (`lib/extractors.js`,
whose code is not part of this tree — `index.js` only passes it the
`slow` flag) scales every internal wait/timeout constant by a slow-mode
multiplier: ×3 when `slow` is true, ×1 otherwise. -/
def slowMultiplier (slow : Bool) : ℕ := if slow then 3 else 1

/-- Modelled from the spec: the wait/timeout constants actually used by an
extraction run with the given `slow` option. -/
def scaleTimeouts (t : ExtractTimeouts) (slow : Bool) : ExtractTimeouts :=
  { navigation := t.navigation * slowMultiplier slow
    hydration := t.hydration * slowMultiplier slow
    stabilization := t.stabilization * slowMultiplier slow }

/-! ## Lemmas about the retry loop -/

/-- In visible (headed) mode the loop returns the attempt's outcome
unchanged: success breaks, failure rethrows. -/
theorem retryLoop_headed {R : Type} (env : Bool → Except String R) :
    retryLoop env true = env true := by
  rw [retryLoop]
  cases env true <;> simp

/-- In visible (headed) mode exactly one attempt happens. -/
theorem retryTrace_headed {R : Type} (env : Bool → Except String R) :
    retryTrace env true = [true] := by
  rw [retryTrace]
  cases env true <;> simp

/-- C1: after a failed headless attempt, the orchestrator performs a
single visible-browser retry if and only if the error message contains
"Timeout" or "net::ERR_"; any other failure propagates to the caller
with zero retries. -/
theorem spec_c1 {R : Type} (env : Bool → Except String R) (e : String)
    (hfail : env false = Except.error e) :
    (isNavErrorMsg e = true →
       retryLoop env false = env true ∧ retryTrace env false = [false, true])
    ∧ (isNavErrorMsg e = false →
       retryLoop env false = Except.error e ∧ retryTrace env false = [false]) := by
  constructor
  · intro hnav
    rw [retryLoop, retryTrace, hfail]
    simp [hnav, retryLoop_headed, retryTrace_headed]
  · intro hnav
    rw [retryLoop, retryTrace, hfail]
    simp [hnav]

/-- C2: at most two browser attempts ever occur, and when the visible
(second) attempt fails, its error is rethrown unconditionally with no
further attempt. -/
theorem spec_c2 {R : Type} (env : Bool → Except String R) :
    (retryTrace env false).length ≤ 2
    ∧ (∀ e0 e : String, env false = Except.error e0 → isNavErrorMsg e0 = true →
        env true = Except.error e →
        retryLoop env false = Except.error e ∧ (retryTrace env false).length = 2) := by
  constructor
  · rw [retryTrace]
    cases hf : env false with
    | ok r => simp
    | error e =>
      by_cases hnav : isNavErrorMsg e <;> simp [hnav, retryTrace_headed]
  · intro e0 e hf hnav hv
    rw [retryLoop, retryTrace, hf]
    simp [hnav, retryLoop_headed, retryTrace_headed, hv]

/-- Headless navigation-class failure, visible success. -/
def envC1 : Bool → Except String Unit := fun b =>
  if b then Except.ok () else Except.error "page Timeout 90000ms exceeded"

theorem spec_c1_witness :
    retryLoop envC1 false = envC1 true ∧ retryTrace envC1 false = [false, true] :=
  (spec_c1 envC1 "page Timeout 90000ms exceeded" rfl).1 (by decide)

/-- Headless navigation-class failure, visible failure of another class. -/
def envC2 : Bool → Except String Unit := fun b =>
  if b then Except.error "blocked by anti-bot" else Except.error "net::ERR_CONNECTION_REFUSED"

theorem spec_c2_witness :
    retryLoop envC2 false = Except.error "blocked by anti-bot"
    ∧ (retryTrace envC2 false).length = 2 :=
  (spec_c2 envC2).2 "net::ERR_CONNECTION_REFUSED" "blocked by anti-bot" rfl (by decide) rfl

/-- C7: truncation to the top N entries (`.slice(0, N)`) is idempotent,
at the caps used by `exportSpacing` (12) and `exportColors` (30) and for
every cap. -/
theorem spec_c7 :
    (∀ l : List DimValue, jsSlice 12 (jsSlice 12 l) = jsSlice 12 l)
    ∧ (∀ l : List PaletteEntry, jsSlice 30 (jsSlice 30 l) = jsSlice 30 l)
    ∧ (∀ (n : ℕ) (l : List RadiusEntry), jsSlice n (jsSlice n l) = jsSlice n l) := by
  refine ⟨fun l => ?_, fun l => ?_, fun n l => ?_⟩ <;>
    simp [jsSlice, List.take_take]

/-- C8: with `slow = true` every wait/timeout constant of the run is
multiplied by 3; with `slow = false` the multiplier is 1 and the
constants are unchanged. -/
theorem spec_c8 (t : ExtractTimeouts) :
    scaleTimeouts t true =
      { navigation := t.navigation * 3, hydration := t.hydration * 3,
        stabilization := t.stabilization * 3 }
    ∧ scaleTimeouts t false = t
    ∧ slowMultiplier true = 3 ∧ slowMultiplier false = 1 := by
  refine ⟨?_, ?_, rfl, rfl⟩ <;> simp [scaleTimeouts, slowMultiplier]

/-! ## Alpha behaviour of `hexToW3CColor` (C9, C10) -/

/-- The effective alpha a colour string carries through `hexToW3CColor`
under the default `alpha = 1` argument (the one used at every call site):
the parsed fourth capture when the rgba branch fires and captured one,
and 1 otherwise (`none` = NaN). -/
def effAlpha (c : String) : Option ℚ :=
  match rgbaMatchOf c with
  | some caps =>
    match caps.aTok with
    | some tok => jsParseFloat tok
    | none => some 1
  | none => some 1

/-- C9: `hexToW3CColor` (at its default opacity argument) emits an
`alpha` field exactly when the effective alpha differs from 1; a present
alpha value is rounded to three decimal places; and inputs not taking the
rgba branch — in particular `rgb()` strings and six-digit hex strings —
never get an alpha field. -/
theorem spec_c9 (c : String) :
    ((hexToW3CColor c).alpha ≠ none ↔ effAlpha c ≠ some 1)
    ∧ (∀ q : ℚ, (hexToW3CColor c).alpha = some (some q) →
        ∃ q0 : ℚ, effAlpha c = some q0 ∧ q = round3 q0)
    ∧ (rgbaMatchOf c = none → (hexToW3CColor c).alpha = none) := by
  unfold hexToW3CColor effAlpha
  cases hra : rgbaMatchOf c with
  | some caps =>
    cases hat : caps.aTok with
    | some tok =>
      simp only [hat]
      by_cases h1 : jsParseFloat tok = some 1
      · simp [h1]
      · refine ⟨by simp [h1], ?_, by simp⟩
        intro q hq
        cases hpf : jsParseFloat tok with
        | none =>
          rw [hpf] at h1 hq
          simp [round3Opt] at hq
        | some q0 =>
          rw [hpf] at h1 hq
          have h1q : q0 ≠ 1 := by simpa using h1
          simp [h1q, round3Opt] at hq
          exact ⟨q0, rfl, hq.symm⟩
    | none => simp [hat]
  | none =>
    cases hrb : rgbMatchOf c with
    | some trip =>
      obtain ⟨d1, d2, d3⟩ := trip
      simp
    | none =>
      by_cases hlen : (jsRemoveFirst ['#'] c.data).length ≠ 6
      · simp [hlen]
      · simp [hlen]

set_option maxRecDepth 8000 in
theorem spec_c9_witness :
    ∃ q0 : ℚ, effAlpha "rgba(16, 32, 48, 0.25)" = some q0 ∧ (1/4 : ℚ) = round3 q0 :=
  (spec_c9 "rgba(16, 32, 48, 0.25)").2.1 (1/4) (by with_unfolding_all decide)

/-- C10: an input that takes neither the rgba branch nor the rgb branch
and whose remaining hex digits after stripping the first `#` are not
exactly six characters (e.g. `#fff` or a CSS named colour) yields the
black fallback object, whatever the opacity argument. -/
theorem spec_c10 (c : String) (alpha : Option ℚ)
    (hra : rgbaMatchOf c = none) (hrb : rgbMatchOf c = none)
    (hlen : (jsRemoveFirst ['#'] c.data).length ≠ 6) :
    hexToW3CColor c alpha =
      { colorSpace := "srgb", components := [some 0, some 0, some 0],
        hex := "#000000", alpha := none } := by
  unfold hexToW3CColor
  rw [hra, hrb]
  simp [hlen]

theorem spec_c10_witness :
    rgbaMatchOf "#fff" = none ∧ rgbMatchOf "#fff" = none
    ∧ (jsRemoveFirst ['#'] "#fff".data).length ≠ 6
    ∧ hexToW3CColor "#fff" (some 1) =
      { colorSpace := "srgb", components := [some 0, some 0, some 0],
        hex := "#000000", alpha := none } :=
  ⟨by decide, by decide, by decide,
   spec_c10 "#fff" (some 1) (by decide) (by decide) (by decide)⟩

/-! ## List lemmas for the aggregation/truncation claims -/

/-- An element at a kept position survives `filter` at some position. -/
theorem filter_getElem?_of_mem {α : Type} (p : α → Bool) :
    ∀ (l : List α) (j : ℕ) (y : α), l[j]? = some y → p y = true →
      ∃ k : ℕ, (l.filter p)[k]? = some y := by
  intro l
  induction l with
  | nil => intro j y h _; simp at h
  | cons a t ih =>
    intro j y h hy
    cases j with
    | zero =>
      simp at h
      subst h
      exact ⟨0, by simp [List.filter_cons, hy]⟩
    | succ j' =>
      simp at h
      obtain ⟨k, hk⟩ := ih j' y h hy
      by_cases hpa : p a
      · exact ⟨k + 1, by simp [List.filter_cons, hpa, hk]⟩
      · exact ⟨k, by simp [List.filter_cons, hpa, hk]⟩

/-- Filtering preserves the relative order of any two kept elements. -/
theorem filter_pair_order {α : Type} (p : α → Bool) :
    ∀ (l : List α) (i j : ℕ) (x y : α), i < j →
      l[i]? = some x → l[j]? = some y → p x = true → p y = true →
      ∃ i' j' : ℕ, i' < j' ∧ (l.filter p)[i']? = some x ∧
        (l.filter p)[j']? = some y := by
  intro l
  induction l with
  | nil => intro i j x y _ hx _ _ _; simp at hx
  | cons a t ih =>
    intro i j x y hij hx hy hpx hpy
    cases i with
    | zero =>
      simp at hx
      subst hx
      cases j with
      | zero => exact absurd hij (Nat.lt_irrefl 0)
      | succ j' =>
        simp at hy
        obtain ⟨k, hk⟩ := filter_getElem?_of_mem p t j' y hy hpy
        refine ⟨0, k + 1, Nat.succ_pos k, ?_, ?_⟩
        · simp [List.filter_cons, hpx]
        · simp [List.filter_cons, hpx, hk]
    | succ i' =>
      cases j with
      | zero => exact absurd hij (by omega)
      | succ j' =>
        simp at hx hy
        obtain ⟨i2, j2, hlt, hx2, hy2⟩ := ih i' j' x y (by omega) hx hy hpx hpy
        by_cases hpa : p a
        · exact ⟨i2 + 1, j2 + 1, by omega,
            by simp [List.filter_cons, hpa, hx2], by simp [List.filter_cons, hpa, hy2]⟩
        · exact ⟨i2, j2, hlt,
            by simp [List.filter_cons, hpa, hx2], by simp [List.filter_cons, hpa, hy2]⟩

/-- C6: the low-confidence filter used by the exporters is
order-preserving: two kept entries appear in the output in the same
relative order as in the ranked input, and the filtered list is a
sublist of the input (removals never reorder the rest). -/
theorem spec_c6 (l : List PaletteEntry) (i j : ℕ) (x y : PaletteEntry)
    (hij : i < j) (hx : l[i]? = some x) (hy : l[j]? = some y)
    (hpx : keepNonLowPal x = true) (hpy : keepNonLowPal y = true) :
    (∃ i' j' : ℕ, i' < j' ∧ (l.filter keepNonLowPal)[i']? = some x ∧
      (l.filter keepNonLowPal)[j']? = some y)
    ∧ List.Sublist (l.filter keepNonLowPal) l :=
  ⟨filter_pair_order keepNonLowPal l i j x y hij hx hy hpx hpy,
   List.filter_sublist l⟩

/-- A high-confidence palette entry (for witnesses). -/
def palHigh : PaletteEntry := ⟨"#111111", none, some 5, some "high"⟩

/-- A medium-confidence palette entry (for witnesses). -/
def palMed : PaletteEntry := ⟨"#222222", none, some 3, some "medium"⟩

/-- A low-confidence palette entry (for witnesses). -/
def palLow : PaletteEntry := ⟨"#333333", none, some 4, some "low"⟩

theorem spec_c6_witness :
    (∃ i' j' : ℕ, i' < j' ∧
      ([palHigh, palLow, palMed].filter keepNonLowPal)[i']? = some palHigh ∧
      ([palHigh, palLow, palMed].filter keepNonLowPal)[j']? = some palMed)
    ∧ List.Sublist ([palHigh, palLow, palMed].filter keepNonLowPal)
        [palHigh, palLow, palMed] :=
  spec_c6 [palHigh, palLow, palMed] 0 2 palHigh palMed (by decide) (by decide)
    (by decide) (by decide) (by decide)

/-- `objInsert` grows an object by at most one key. -/
theorem objInsert_length_le {V : Type} (ob : JsObj V) (k : String) (v : V) :
    (objInsert ob k v).length ≤ ob.length + 1 := by
  unfold objInsert
  by_cases h : ob.any (fun p => p.1 == k) <;> simp [h]

/-- `objInsert` never empties an object. -/
theorem objInsert_ne_nil {V : Type} (ob : JsObj V) (k : String) (v : V) :
    objInsert ob k v ≠ [] := by
  unfold objInsert
  by_cases h : ob.any (fun p => p.1 == k)
  · rw [if_pos h]
    intro hmap
    rw [List.map_eq_nil_iff] at hmap
    subst hmap
    simp at h
  · rw [if_neg h]
    simp

/-- Every entry of `objInsert ob k v` is the inserted pair or an entry of
`ob`. -/
theorem objInsert_mem {V : Type} {ob : JsObj V} {k : String} {v : V} {p : String × V}
    (hp : p ∈ objInsert ob k v) : p = (k, v) ∨ p ∈ ob := by
  unfold objInsert at hp
  by_cases h : ob.any (fun q => q.1 == k)
  · rw [if_pos h] at hp
    obtain ⟨q, hq, hqe⟩ := List.mem_map.mp hp
    by_cases hq1 : q.1 == k
    · rw [if_pos hq1] at hqe
      exact Or.inl hqe.symm
    · rw [if_neg hq1] at hqe
      subst hqe
      exact Or.inr hq
  · rw [if_neg h] at hp
    rcases List.mem_append.mp hp with h1 | h2
    · exact Or.inr h1
    · exact Or.inl (by simpa using h2)

/-- Length of a fold whose step adds at most one element. -/
theorem foldl_length_le {α β : Type} (step : β → α → β) (m : β → ℕ)
    (hstep : ∀ st a, m (step st a) ≤ m st + 1) :
    ∀ (l : List α) (st : β), m (l.foldl step st) ≤ m st + l.length := by
  intro l
  induction l with
  | nil => intro st; simp
  | cons a t ih =>
    intro st
    calc m ((a :: t).foldl step st) = m (t.foldl step (step st a)) := by simp
    _ ≤ m (step st a) + t.length := ih _
    _ ≤ m st + (a :: t).length := by
        have := hstep st a
        simp only [List.length_cons]
        omega

/-! ## Characterization of the exporters' token lists -/

/-- The token list of a single-object exporter result. -/
def listToks {V : Type} : Option (JsObj V) → JsObj V
  | none => []
  | some l => l

/-- The `… ? tokens : null` return guard shared by the exporters. -/
theorem listToks_guard {V : Type} (toks : JsObj V) :
    listToks (if toks.isEmpty then none else some toks) = toks := by
  by_cases h : toks.isEmpty
  · have hnil : toks = [] := by simpa using h
    simp [h, hnil, listToks]
  · simp [h, listToks]

/-- The spacing tokens are exactly the first 12 common values, mapped. -/
theorem exportSpacing_toks (vals : List DimValue) :
    listToks (exportSpacing (some ⟨some vals⟩)) =
      (jsSlice 12 vals).enum.map (fun p =>
        ("spacing-" ++ toString (p.1 + 1),
         ({ ty := "dimension", value := toW3CDimension (spacingArg p.2) } : DimTok))) := by
  unfold exportSpacing
  by_cases h : vals.isEmpty
  · have hnil : vals = [] := by simpa using h
    subst hnil
    simp [jsSlice, listToks]
  · simp only [h, Bool.false_eq_true, if_false]
    exact listToks_guard _

/-- The radius tokens are exactly the low-filtered values capped at 6,
mapped. -/
theorem exportBorderRadius_toks (vals : List RadiusEntry) :
    listToks (exportBorderRadius (some ⟨some vals⟩)) =
      (jsSlice 6 (vals.filter keepNonLowRad)).enum.map (fun p =>
        ("radius-" ++ toString (p.1 + 1),
         ({ ty := "dimension", value := toW3CDimension p.2.value } : DimTok))) := by
  unfold exportBorderRadius
  by_cases h : vals.isEmpty
  · have hnil : vals = [] := by simpa using h
    subst hnil
    simp [jsSlice, listToks]
  · simp only [h, Bool.false_eq_true, if_false]
    exact listToks_guard _

/-- The shadow tokens are exactly the low-filtered entries capped at 6,
mapped. -/
theorem exportShadows_toks (shads : List ShadowEntry) :
    listToks (exportShadows (some shads)) =
      (jsSlice 6 (shads.filter keepNonLowShadow)).enum.map (fun p => mkShadowTok p.1 p.2) := by
  unfold exportShadows
  by_cases h : shads.isEmpty
  · have hnil : shads = [] := by simpa using h
    subst hnil
    simp [jsSlice, listToks]
  · simp only [h, Bool.false_eq_true, if_false]
    exact listToks_guard _

/-- The palette token list of an `exportColors` result. -/
def paletteToks (o : Option ColorTokensObj) : JsObj ColorTok :=
  match o with
  | some ob => ob.palette.getD []
  | none => []

/-- The semantic token list of an `exportColors` result. -/
def semanticToks (o : Option ColorTokensObj) : JsObj ColorTok :=
  match o with
  | some ob => ob.semantic.getD []
  | none => []

/-- The palette tokens of `exportColors` are exactly the low-filtered
palette capped at 30, mapped to tokens in rank order. -/
theorem exportColors_palette_toks (pal : List PaletteEntry)
    (sem : Option (JsObj (Option SemValue))) :
    paletteToks (exportColors (some ⟨some pal, sem⟩)) =
      (jsSlice 30 (pal.filter keepNonLowPal)).enum.map (fun p => mkPaletteTok p.1 p.2) := by
  unfold exportColors
  by_cases hpal : pal.isEmpty
  · have hnil : pal = [] := by simpa using hpal
    subst hnil
    simp [jsSlice, paletteToks]
  · simp only [hpal, Bool.false_eq_true, if_false]
    set P := (jsSlice 30 (pal.filter keepNonLowPal)).enum.map (fun p => mkPaletteTok p.1 p.2) with hP
    set S : JsObj ColorTok :=
      (match sem with
       | none => []
       | some entries => entries.foldl semStep []) with hS
    by_cases hPe : P.isEmpty
    · have hPnil : P = [] := by simpa using hPe
      by_cases hSe : S.isEmpty
      · simp [hPe, hSe, paletteToks, hPnil]
      · simp [hPe, hSe, paletteToks, hPnil]
    · simp [hPe, paletteToks]

/-- The text-style token list of an `exportTypography` result. -/
def styleToks (o : Option TypographyTokensObj) : JsObj TypTok :=
  match o with
  | some ob => ob.style.getD []
  | none => []

/-- The font-family token list of an `exportTypography` result. -/
def familyToks (o : Option TypographyTokensObj) : JsObj FontFamilyTok :=
  match o with
  | some ob => ob.fontFamily.getD []
  | none => []

/-- The text-style tokens of `exportTypography` are exactly the fold of
object insertions over the first 10 styles. -/
theorem exportTypography_style_toks (styles : List TypStyle) :
    styleToks (exportTypography (some ⟨some styles⟩)) =
      (jsSlice 10 styles).enum.foldl (fun ob p =>
        let nt := mkTextStyleTok p.1 p.2
        objInsert ob nt.1 nt.2) [] := by
  unfold exportTypography
  by_cases hsty : styles.isEmpty
  · have hnil : styles = [] := by simpa using hsty
    subst hnil
    simp [jsSlice, styleToks]
  · simp only [hsty, Bool.false_eq_true, if_false]
    set T := (jsSlice 10 styles).enum.foldl (fun ob p =>
      let nt := mkTextStyleTok p.1 p.2
      objInsert ob nt.1 nt.2) ([] : JsObj TypTok) with hT
    set F := collectFamilies styles with hF
    by_cases hTe : T.isEmpty
    · have hTnil : T = [] := by simpa using hTe
      by_cases hFe : F.isEmpty
      · simp [hTe, hFe, styleToks, hTnil]
      · simp [hTe, hFe, styleToks, hTnil]
    · by_cases hFe : F.isEmpty
      · simp [hTe, hFe, styleToks]
      · simp [hTe, hFe, styleToks]

/-- The width token list of an `exportBorders` result. -/
def widthToks (o : Option BorderTokensObj) : JsObj DimTok :=
  match o with
  | some ob => ob.width.getD []
  | none => []

/-- The colour token list of an `exportBorders` result. -/
def bColorToks (o : Option BorderTokensObj) : JsObj ColorValTok :=
  match o with
  | some ob => ob.color.getD []
  | none => []

/-- The width tokens of `exportBorders` are the widths accumulated by the
forEach fold over the low-filtered combinations capped at 10. -/
theorem exportBorders_width_toks (combos : List BorderCombo) :
    widthToks (exportBorders (some ⟨some combos⟩)) =
      ((jsSlice 10 (combos.filter keepNonLowCombo)).foldl bordersStep ⟨[], [], [], []⟩).widths := by
  unfold exportBorders
  by_cases hc : combos.isEmpty
  · have hnil : combos = [] := by simpa using hc
    subst hnil
    simp [jsSlice, widthToks]
  · simp only [hc, Bool.false_eq_true, if_false]
    set st := (jsSlice 10 (combos.filter keepNonLowCombo)).foldl bordersStep
      (⟨[], [], [], []⟩ : BordersSt) with hst
    by_cases hwe : st.widths.isEmpty
    · have hwnil : st.widths = [] := by simpa using hwe
      by_cases hce : st.colors.isEmpty
      · simp [hwe, hce, widthToks, hwnil]
      · simp [hwe, hce, widthToks, hwnil]
    · by_cases hce : st.colors.isEmpty
      · simp [hwe, hce, widthToks]
      · simp [hwe, hce, widthToks]

/-- The colour tokens of `exportBorders` are the colours accumulated by
the forEach fold over the low-filtered combinations capped at 10. -/
theorem exportBorders_color_toks (combos : List BorderCombo) :
    bColorToks (exportBorders (some ⟨some combos⟩)) =
      ((jsSlice 10 (combos.filter keepNonLowCombo)).foldl bordersStep ⟨[], [], [], []⟩).colors := by
  unfold exportBorders
  by_cases hc : combos.isEmpty
  · have hnil : combos = [] := by simpa using hc
    subst hnil
    simp [jsSlice, bColorToks]
  · simp only [hc, Bool.false_eq_true, if_false]
    set st := (jsSlice 10 (combos.filter keepNonLowCombo)).foldl bordersStep
      (⟨[], [], [], []⟩ : BordersSt) with hst
    by_cases hwe : st.widths.isEmpty
    · have hwnil : st.widths = [] := by simpa using hwe
      by_cases hce : st.colors.isEmpty
      · have hcnil : st.colors = [] := by simpa using hce
        simp [hwe, hce, bColorToks, hcnil]
      · simp [hwe, hce, bColorToks]
    · by_cases hce : st.colors.isEmpty
      · have hcnil : st.colors = [] := by simpa using hce
        simp [hwe, hce, bColorToks, hcnil]
      · simp [hwe, hce, bColorToks]

/-- What one `exportBorders` iteration does to the width tokens. -/
theorem bordersStep_widths_eq (st : BordersSt) (combo : BorderCombo) :
    (bordersStep st combo).widths =
      (match combo.width with
       | some w =>
         if !w.isEmpty && !st.seenWidths.contains w then
           objInsert st.widths ("border-width-" ++ toString (st.seenWidths.length + 1))
             { ty := "dimension", value := toW3CDimension (.str w) }
         else st.widths
       | none => st.widths) := by
  unfold bordersStep
  cases combo.width <;> cases combo.color <;> simp only [] <;> split_ifs <;> rfl

/-- What one `exportBorders` iteration does to the colour tokens. -/
theorem bordersStep_colors_eq (st : BordersSt) (combo : BorderCombo) :
    (bordersStep st combo).colors =
      (match combo.color with
       | some c =>
         if !c.isEmpty && !st.seenColors.contains c then
           objInsert st.colors ("border-color-" ++ toString (st.seenColors.length + 1))
             { ty := "color", value := hexToW3CColor c }
         else st.colors
       | none => st.colors) := by
  unfold bordersStep
  cases combo.width <;> cases combo.color <;> simp only [] <;> split_ifs <;> rfl

/-- One iteration adds at most one width token. -/
theorem bordersStep_widths_le (st : BordersSt) (combo : BorderCombo) :
    (bordersStep st combo).widths.length ≤ st.widths.length + 1 := by
  rw [bordersStep_widths_eq]
  cases combo.width with
  | none => exact Nat.le_succ _
  | some w =>
    dsimp only
    split_ifs with h
    · exact objInsert_length_le _ _ _
    · exact Nat.le_succ _

/-- One iteration adds at most one colour token. -/
theorem bordersStep_colors_le (st : BordersSt) (combo : BorderCombo) :
    (bordersStep st combo).colors.length ≤ st.colors.length + 1 := by
  rw [bordersStep_colors_eq]
  cases combo.color with
  | none => exact Nat.le_succ _
  | some c =>
    dsimp only
    split_ifs with h
    · exact objInsert_length_le _ _ _
    · exact Nat.le_succ _

/-- Every width token after one iteration is pre-existing or derives from
this combo's truthy width. -/
theorem bordersStep_widths_mem (st : BordersSt) (combo : BorderCombo)
    (p : String × DimTok) (hp : p ∈ (bordersStep st combo).widths) :
    p ∈ st.widths ∨ ∃ w : String, combo.width = some w ∧
      p.2 = { ty := "dimension", value := toW3CDimension (.str w) } := by
  rw [bordersStep_widths_eq] at hp
  cases hw : combo.width with
  | none => rw [hw] at hp; exact Or.inl hp
  | some w =>
    rw [hw] at hp
    dsimp only at hp
    split_ifs at hp with h
    · rcases objInsert_mem hp with h1 | h2
      · exact Or.inr ⟨w, rfl, by rw [h1]⟩
      · exact Or.inl h2
    · exact Or.inl hp

/-- Every colour token after one iteration is pre-existing or derives from
this combo's truthy colour. -/
theorem bordersStep_colors_mem (st : BordersSt) (combo : BorderCombo)
    (p : String × ColorValTok) (hp : p ∈ (bordersStep st combo).colors) :
    p ∈ st.colors ∨ ∃ c : String, combo.color = some c ∧
      p.2 = { ty := "color", value := hexToW3CColor c } := by
  rw [bordersStep_colors_eq] at hp
  cases hc : combo.color with
  | none => rw [hc] at hp; exact Or.inl hp
  | some c =>
    rw [hc] at hp
    dsimp only at hp
    split_ifs at hp with h
    · rcases objInsert_mem hp with h1 | h2
      · exact Or.inr ⟨c, rfl, by rw [h1]⟩
      · exact Or.inl h2
    · exact Or.inl hp

/-- Provenance of width tokens across the whole fold. -/
theorem foldl_bordersStep_widths_mem (l : List BorderCombo) :
    ∀ (st : BordersSt) (p : String × DimTok), p ∈ (l.foldl bordersStep st).widths →
      p ∈ st.widths ∨ ∃ combo, combo ∈ l ∧ ∃ w : String, combo.width = some w ∧
        p.2 = { ty := "dimension", value := toW3CDimension (.str w) } := by
  induction l with
  | nil => intro st p hp; exact Or.inl (by simpa using hp)
  | cons a t ih =>
    intro st p hp
    rw [List.foldl_cons] at hp
    rcases ih (bordersStep st a) p hp with h1 | h2
    · rcases bordersStep_widths_mem st a p h1 with h3 | h4
      · exact Or.inl h3
      · obtain ⟨w, hw, hpv⟩ := h4
        exact Or.inr ⟨a, List.mem_cons_self a t, w, hw, hpv⟩
    · obtain ⟨combo, hc, rest⟩ := h2
      exact Or.inr ⟨combo, List.mem_cons_of_mem a hc, rest⟩

/-- Provenance of colour tokens across the whole fold. -/
theorem foldl_bordersStep_colors_mem (l : List BorderCombo) :
    ∀ (st : BordersSt) (p : String × ColorValTok), p ∈ (l.foldl bordersStep st).colors →
      p ∈ st.colors ∨ ∃ combo, combo ∈ l ∧ ∃ c : String, combo.color = some c ∧
        p.2 = { ty := "color", value := hexToW3CColor c } := by
  induction l with
  | nil => intro st p hp; exact Or.inl (by simpa using hp)
  | cons a t ih =>
    intro st p hp
    rw [List.foldl_cons] at hp
    rcases ih (bordersStep st a) p hp with h1 | h2
    · rcases bordersStep_colors_mem st a p h1 with h3 | h4
      · exact Or.inl h3
      · obtain ⟨c, hc, hpv⟩ := h4
        exact Or.inr ⟨a, List.mem_cons_self a t, c, hc, hpv⟩
    · obtain ⟨combo, hc, rest⟩ := h2
      exact Or.inr ⟨combo, List.mem_cons_of_mem a hc, rest⟩

/-- Token count of a capped-and-mapped list: the capped size of its input. -/
theorem toks_map_length {α β : Type} (f : ℕ × α → β) (n : ℕ) (l : List α) :
    ((jsSlice n l).enum.map f).length = min l.length n := by
  simp [jsSlice, List.enum_length, Nat.min_comm]

/-- Every token of a capped-and-mapped list derives from an input entry. -/
theorem toks_map_mem {α β : Type} (f : ℕ × α → β) (n : ℕ) (l : List α) (x : β)
    (hx : x ∈ (jsSlice n l).enum.map f) :
    ∃ i : ℕ, ∃ a, a ∈ l ∧ x = f (i, a) := by
  obtain ⟨p, hp, he⟩ := List.mem_map.mp hx
  have h2 : (jsSlice n l)[p.1]? = some p.2 := List.mem_enum_iff_getElem?.mp hp
  have h3 : p.2 ∈ jsSlice n l := List.getElem?_mem h2
  exact ⟨p.1, p.2, List.take_subset n l h3, he.symm⟩

/-- C3: in every exporter that applies both the confidence filter and a
top-N cap (palette, border radius, shadows, borders), entries with
confidence `low` are removed before the cap: the token count equals the
capped size of the low-filtered input (so fewer than N survivors yield
fewer than N tokens, never backfilled), and every emitted token derives
from a kept, non-low entry. -/
theorem spec_c3 (pal : List PaletteEntry) (sem : Option (JsObj (Option SemValue)))
    (rvals : List RadiusEntry) (shads : List ShadowEntry) (combos : List BorderCombo) :
    ((paletteToks (exportColors (some ⟨some pal, sem⟩))).length
        = min (pal.filter keepNonLowPal).length 30
      ∧ ((pal.filter keepNonLowPal).length < 30 →
          (paletteToks (exportColors (some ⟨some pal, sem⟩))).length < 30)
      ∧ ∀ nm tk, (nm, tk) ∈ paletteToks (exportColors (some ⟨some pal, sem⟩)) →
          ∃ i : ℕ, ∃ e, e ∈ pal ∧ keepNonLowPal e = true ∧ (nm, tk) = mkPaletteTok i e)
    ∧ ((listToks (exportBorderRadius (some ⟨some rvals⟩))).length
        = min (rvals.filter keepNonLowRad).length 6
      ∧ ((rvals.filter keepNonLowRad).length < 6 →
          (listToks (exportBorderRadius (some ⟨some rvals⟩))).length < 6)
      ∧ ∀ nm tk, (nm, tk) ∈ listToks (exportBorderRadius (some ⟨some rvals⟩)) →
          ∃ i : ℕ, ∃ e, e ∈ rvals ∧ keepNonLowRad e = true ∧
            (nm, tk) = ("radius-" ++ toString (i + 1),
              ({ ty := "dimension", value := toW3CDimension e.value } : DimTok)))
    ∧ ((listToks (exportShadows (some shads))).length
        = min (shads.filter keepNonLowShadow).length 6
      ∧ ((shads.filter keepNonLowShadow).length < 6 →
          (listToks (exportShadows (some shads))).length < 6)
      ∧ ∀ nm tk, (nm, tk) ∈ listToks (exportShadows (some shads)) →
          ∃ i : ℕ, ∃ e, e ∈ shads ∧ keepNonLowShadow e = true ∧ (nm, tk) = mkShadowTok i e)
    ∧ ((widthToks (exportBorders (some ⟨some combos⟩))).length
        ≤ min (combos.filter keepNonLowCombo).length 10
      ∧ (bColorToks (exportBorders (some ⟨some combos⟩))).length
        ≤ min (combos.filter keepNonLowCombo).length 10
      ∧ (∀ p, p ∈ widthToks (exportBorders (some ⟨some combos⟩)) →
          ∃ combo, combo ∈ combos ∧ keepNonLowCombo combo = true ∧
            ∃ w : String, combo.width = some w ∧
              p.2 = ({ ty := "dimension", value := toW3CDimension (.str w) } : DimTok))
      ∧ (∀ p, p ∈ bColorToks (exportBorders (some ⟨some combos⟩)) →
          ∃ combo, combo ∈ combos ∧ keepNonLowCombo combo = true ∧
            ∃ c : String, combo.color = some c ∧
              p.2 = ({ ty := "color", value := hexToW3CColor c } : ColorValTok))) := by
  refine ⟨⟨?_, ?_, ?_⟩, ⟨?_, ?_, ?_⟩, ⟨?_, ?_, ?_⟩, ?_, ?_, ?_, ?_⟩
  · rw [exportColors_palette_toks]
    exact toks_map_length _ 30 _
  · intro hlt
    rw [exportColors_palette_toks, toks_map_length]
    omega
  · intro nm tk hmem
    rw [exportColors_palette_toks] at hmem
    obtain ⟨i, e, he, heq⟩ := toks_map_mem _ 30 _ _ hmem
    obtain ⟨he1, he2⟩ := List.mem_filter.mp he
    exact ⟨i, e, he1, he2, heq⟩
  · rw [exportBorderRadius_toks]
    exact toks_map_length _ 6 _
  · intro hlt
    rw [exportBorderRadius_toks, toks_map_length]
    omega
  · intro nm tk hmem
    rw [exportBorderRadius_toks] at hmem
    obtain ⟨i, e, he, heq⟩ := toks_map_mem _ 6 _ _ hmem
    obtain ⟨he1, he2⟩ := List.mem_filter.mp he
    exact ⟨i, e, he1, he2, heq⟩
  · rw [exportShadows_toks]
    exact toks_map_length _ 6 _
  · intro hlt
    rw [exportShadows_toks, toks_map_length]
    omega
  · intro nm tk hmem
    rw [exportShadows_toks] at hmem
    obtain ⟨i, e, he, heq⟩ := toks_map_mem _ 6 _ _ hmem
    obtain ⟨he1, he2⟩ := List.mem_filter.mp he
    exact ⟨i, e, he1, he2, heq⟩
  · rw [exportBorders_width_toks]
    have h1 := foldl_length_le bordersStep (fun s => s.widths.length)
      bordersStep_widths_le (jsSlice 10 (combos.filter keepNonLowCombo)) ⟨[], [], [], []⟩
    simp only [jsSlice, List.length_take] at h1
    calc ((jsSlice 10 (combos.filter keepNonLowCombo)).foldl bordersStep
          ⟨[], [], [], []⟩).widths.length
        ≤ min 10 (combos.filter keepNonLowCombo).length := by simpa using h1
    _ = min (combos.filter keepNonLowCombo).length 10 := Nat.min_comm _ _
  · rw [exportBorders_color_toks]
    have h1 := foldl_length_le bordersStep (fun s => s.colors.length)
      bordersStep_colors_le (jsSlice 10 (combos.filter keepNonLowCombo)) ⟨[], [], [], []⟩
    simp only [jsSlice, List.length_take] at h1
    calc ((jsSlice 10 (combos.filter keepNonLowCombo)).foldl bordersStep
          ⟨[], [], [], []⟩).colors.length
        ≤ min 10 (combos.filter keepNonLowCombo).length := by simpa using h1
    _ = min (combos.filter keepNonLowCombo).length 10 := Nat.min_comm _ _
  · intro p hp
    rw [exportBorders_width_toks] at hp
    rcases foldl_bordersStep_widths_mem _ _ _ hp with h1 | h2
    · simp at h1
    · obtain ⟨combo, hc, w, hw, hpv⟩ := h2
      have hc2 : combo ∈ combos.filter keepNonLowCombo :=
        List.take_subset 10 _ hc
      obtain ⟨hc3, hc4⟩ := List.mem_filter.mp hc2
      exact ⟨combo, hc3, hc4, w, hw, hpv⟩
  · intro p hp
    rw [exportBorders_color_toks] at hp
    rcases foldl_bordersStep_colors_mem _ _ _ hp with h1 | h2
    · simp at h1
    · obtain ⟨combo, hc, c, hcc, hpv⟩ := h2
      have hc2 : combo ∈ combos.filter keepNonLowCombo :=
        List.take_subset 10 _ hc
      obtain ⟨hc3, hc4⟩ := List.mem_filter.mp hc2
      exact ⟨combo, hc3, hc4, c, hcc, hpv⟩

set_option maxRecDepth 16000 in
theorem spec_c3_witness :
    (paletteToks (exportColors (some ⟨some [palHigh, palLow], none⟩))).length < 30
    ∧ ∃ i : ℕ, ∃ e, e ∈ [palHigh, palLow] ∧ keepNonLowPal e = true ∧
        ("palette-1", (mkPaletteTok 0 palHigh).2) = mkPaletteTok i e := by
  have h := spec_c3 [palHigh, palLow] none [] [] []
  refine ⟨h.1.2.1 (by decide), ?_⟩
  exact h.1.2.2 "palette-1" (mkPaletteTok 0 palHigh).2 (by with_unfolding_all decide)

/-- C4: every category output respects its hard cap (palette ≤ 30,
typography styles ≤ 10, spacing ≤ 12, radius ≤ 6, borders ≤ 10,
shadows ≤ 6), and each cap takes a prefix of the ranked sequence it is
applied to (which in turn is an order-preserving sublist of the ranked
input where a filter precedes the cap), so truncation never drops a
higher-ranked entry while keeping a lower-ranked one. -/
theorem spec_c4 (pal : List PaletteEntry) (sem : Option (JsObj (Option SemValue)))
    (styles : List TypStyle) (vals : List DimValue) (rvals : List RadiusEntry)
    (combos : List BorderCombo) (shads : List ShadowEntry) :
    (paletteToks (exportColors (some ⟨some pal, sem⟩))).length ≤ 30
    ∧ (styleToks (exportTypography (some ⟨some styles⟩))).length ≤ 10
    ∧ (listToks (exportSpacing (some ⟨some vals⟩))).length ≤ 12
    ∧ (listToks (exportBorderRadius (some ⟨some rvals⟩))).length ≤ 6
    ∧ (widthToks (exportBorders (some ⟨some combos⟩))).length ≤ 10
    ∧ (bColorToks (exportBorders (some ⟨some combos⟩))).length ≤ 10
    ∧ (listToks (exportShadows (some shads))).length ≤ 6
    ∧ List.IsPrefix (jsSlice 30 (pal.filter keepNonLowPal)) (pal.filter keepNonLowPal)
    ∧ List.Sublist (pal.filter keepNonLowPal) pal
    ∧ List.IsPrefix (jsSlice 10 styles) styles
    ∧ List.IsPrefix (jsSlice 12 vals) vals
    ∧ List.IsPrefix (jsSlice 6 (rvals.filter keepNonLowRad)) (rvals.filter keepNonLowRad)
    ∧ List.Sublist (rvals.filter keepNonLowRad) rvals
    ∧ List.IsPrefix (jsSlice 10 (combos.filter keepNonLowCombo)) (combos.filter keepNonLowCombo)
    ∧ List.Sublist (combos.filter keepNonLowCombo) combos
    ∧ List.IsPrefix (jsSlice 6 (shads.filter keepNonLowShadow)) (shads.filter keepNonLowShadow)
    ∧ List.Sublist (shads.filter keepNonLowShadow) shads := by
  refine ⟨?_, ?_, ?_, ?_, ?_, ?_, ?_,
    ⟨_, List.take_append_drop _ _⟩, List.filter_sublist _,
    ⟨_, List.take_append_drop _ _⟩, ⟨_, List.take_append_drop _ _⟩,
    ⟨_, List.take_append_drop _ _⟩, List.filter_sublist _,
    ⟨_, List.take_append_drop _ _⟩, List.filter_sublist _,
    ⟨_, List.take_append_drop _ _⟩, List.filter_sublist _⟩
  · rw [exportColors_palette_toks, toks_map_length]
    exact Nat.min_le_right _ _
  · rw [exportTypography_style_toks]
    have h1 := foldl_length_le (fun ob p =>
        let nt := mkTextStyleTok p.1 p.2
        objInsert ob nt.1 nt.2) List.length
      (fun st a => objInsert_length_le st _ _) (jsSlice 10 styles).enum []
    simp only [List.length_nil, Nat.zero_add, List.enum_length, jsSlice,
      List.length_take] at h1
    calc ((jsSlice 10 styles).enum.foldl (fun ob p =>
          let nt := mkTextStyleTok p.1 p.2
          objInsert ob nt.1 nt.2) []).length
        ≤ min 10 styles.length := by simpa [jsSlice] using h1
    _ ≤ 10 := Nat.min_le_left _ _
  · rw [exportSpacing_toks, toks_map_length]
    exact Nat.min_le_right _ _
  · rw [exportBorderRadius_toks, toks_map_length]
    exact Nat.min_le_right _ _
  · rw [exportBorders_width_toks]
    have h1 := foldl_length_le bordersStep (fun s => s.widths.length)
      bordersStep_widths_le (jsSlice 10 (combos.filter keepNonLowCombo)) ⟨[], [], [], []⟩
    calc ((jsSlice 10 (combos.filter keepNonLowCombo)).foldl bordersStep
          ⟨[], [], [], []⟩).widths.length
        ≤ 0 + (jsSlice 10 (combos.filter keepNonLowCombo)).length := h1
    _ ≤ 10 := by simp [jsSlice, List.length_take]
  · rw [exportBorders_color_toks]
    have h1 := foldl_length_le bordersStep (fun s => s.colors.length)
      bordersStep_colors_le (jsSlice 10 (combos.filter keepNonLowCombo)) ⟨[], [], [], []⟩
    calc ((jsSlice 10 (combos.filter keepNonLowCombo)).foldl bordersStep
          ⟨[], [], [], []⟩).colors.length
        ≤ 0 + (jsSlice 10 (combos.filter keepNonLowCombo)).length := h1
    _ ≤ 10 := by simp [jsSlice, List.length_take]
  · rw [exportShadows_toks, toks_map_length]
    exact Nat.min_le_right _ _

/-! ## Field-presence claims (C5) -/

/-- Total token count of a colour export result. -/
def colorTokCount : Option ColorTokensObj → ℕ
  | none => 0
  | some ob => (ob.semantic.getD []).length + (ob.palette.getD []).length

/-- Total token count of a typography export result. -/
def typTokCount : Option TypographyTokensObj → ℕ
  | none => 0
  | some ob => (ob.fontFamily.getD []).length + (ob.style.getD []).length

/-- Total token count of a border export result. -/
def borderTokCount : Option BorderTokensObj → ℕ
  | none => 0
  | some ob => (ob.width.getD []).length + (ob.color.getD []).length

/-- Token count of a single-object export result. -/
def listTokCount {V : Type} : Option (JsObj V) → ℕ
  | none => 0
  | some l => l.length

/-- The `… ? tokens : null` guard only returns nonempty objects. -/
theorem listGuard_some_pos {V : Type} (toks : JsObj V) (o : JsObj V)
    (h : (if toks.isEmpty then none else some toks) = some o) : 0 < o.length := by
  by_cases he : toks.isEmpty
  · rw [if_pos he] at h
    simp at h
  · rw [if_neg he] at h
    injection h with h2
    subst h2
    exact List.length_pos.mpr (by simpa using he)

/-- A present spacing field carries at least one token. -/
theorem exportSpacing_some_pos (x : Option SpacingInput) (o : JsObj DimTok)
    (h : exportSpacing x = some o) : 0 < o.length := by
  unfold exportSpacing at h
  cases x with
  | none => simp at h
  | some si =>
    dsimp only at h
    cases hv : si.commonValues with
    | none => rw [hv] at h; simp at h
    | some vals =>
      rw [hv] at h
      dsimp only at h
      by_cases hemp : vals.isEmpty
      · rw [if_pos hemp] at h; simp at h
      · rw [if_neg hemp] at h
        exact listGuard_some_pos _ _ h

/-- A present radius field carries at least one token. -/
theorem exportBorderRadius_some_pos (x : Option BorderRadiusInput) (o : JsObj DimTok)
    (h : exportBorderRadius x = some o) : 0 < o.length := by
  unfold exportBorderRadius at h
  cases x with
  | none => simp at h
  | some bi =>
    dsimp only at h
    cases hv : bi.values with
    | none => rw [hv] at h; simp at h
    | some vals =>
      rw [hv] at h
      dsimp only at h
      by_cases hemp : vals.isEmpty
      · rw [if_pos hemp] at h; simp at h
      · rw [if_neg hemp] at h
        exact listGuard_some_pos _ _ h

/-- A present shadow field carries at least one token. -/
theorem exportShadows_some_pos (x : Option (List ShadowEntry)) (o : JsObj ShadowTok)
    (h : exportShadows x = some o) : 0 < o.length := by
  unfold exportShadows at h
  cases x with
  | none => simp at h
  | some sl =>
    dsimp only at h
    by_cases hemp : sl.isEmpty
    · rw [if_pos hemp] at h; simp at h
    · rw [if_neg hemp] at h
      exact listGuard_some_pos _ _ h

/-- The colour export has zero tokens exactly when the field is absent. -/
theorem exportColors_count_zero_iff (x : Option ColorsInput) :
    colorTokCount (exportColors x) = 0 ↔ exportColors x = none := by
  cases x with
  | none => simp [exportColors, colorTokCount]
  | some cs =>
    obtain ⟨palOpt, semOpt⟩ := cs
    cases palOpt with
    | none => simp [exportColors, colorTokCount]
    | some pal =>
      unfold exportColors
      dsimp only
      by_cases hpal : pal.isEmpty
      · simp [hpal, colorTokCount]
      · simp only [hpal, Bool.false_eq_true, if_false]
        cases semOpt with
        | none =>
          set P := (jsSlice 30 (pal.filter keepNonLowPal)).enum.map
            (fun p => mkPaletteTok p.1 p.2) with hP
          by_cases hPe : P.isEmpty
          · have hPnil : P = [] := by simpa using hPe
            simp [hPe, hPnil, colorTokCount]
          · simp [hPe, colorTokCount]
            simpa using hPe
        | some entries =>
          set S := entries.foldl semStep ([] : JsObj ColorTok) with hS
          set P := (jsSlice 30 (pal.filter keepNonLowPal)).enum.map
            (fun p => mkPaletteTok p.1 p.2) with hP
          by_cases hSe : S.isEmpty <;> by_cases hPe : P.isEmpty
          · have hSnil : S = [] := by simpa using hSe
            have hPnil : P = [] := by simpa using hPe
            simp [hSe, hPe, hSnil, hPnil, colorTokCount]
          · simp [hSe, hPe, colorTokCount]
            simpa using hPe
          · have hSne : ¬S = [] := by simpa using hSe
            rw [hS] at hSne
            simp [hSe, hPe, colorTokCount]
            exact hSne
          · have hSne : ¬S = [] := by simpa using hSe
            rw [hS] at hSne
            simp [hSe, hPe, colorTokCount]
            exact fun hc => absurd hc hSne

/-- A fold of object insertions over a nonempty list (or from a nonempty
start) is nonempty. -/
theorem foldl_objInsert_ne_nil {α V : Type} (key : α → String) (val : α → V) :
    ∀ (l : List α) (init : JsObj V), (l ≠ [] ∨ init ≠ []) →
      l.foldl (fun ob a => objInsert ob (key a) (val a)) init ≠ [] := by
  intro l
  induction l with
  | nil =>
    intro init h
    rcases h with h1 | h2
    · exact absurd rfl h1
    · simpa using h2
  | cons a t ih =>
    intro init _
    rw [List.foldl_cons]
    exact ih _ (Or.inr (objInsert_ne_nil _ _ _))

/-- The typography export has zero tokens exactly when the field is absent. -/
theorem exportTypography_count_zero_iff (x : Option TypographyInput) :
    typTokCount (exportTypography x) = 0 ↔ exportTypography x = none := by
  cases x with
  | none => simp [exportTypography, typTokCount]
  | some ti =>
    obtain ⟨stylesOpt⟩ := ti
    cases stylesOpt with
    | none => simp [exportTypography, typTokCount]
    | some styles =>
      unfold exportTypography
      dsimp only
      by_cases hsty : styles.isEmpty
      · simp [hsty, typTokCount]
      · simp only [hsty, Bool.false_eq_true, if_false]
        set F := collectFamilies styles with hF
        set T := (jsSlice 10 styles).enum.foldl (fun ob p =>
          let nt := mkTextStyleTok p.1 p.2
          objInsert ob nt.1 nt.2) ([] : JsObj TypTok) with hT
        have hTne : T ≠ [] := by
          have h0 : styles ≠ [] := by simpa using hsty
          have h1 : 0 < styles.length := List.length_pos.mpr h0
          have hne : (jsSlice 10 styles).enum ≠ [] := by
            apply List.ne_nil_of_length_pos
            simp only [jsSlice, List.enum_length, List.length_take]
            omega
          rw [hT]
          exact foldl_objInsert_ne_nil
            (fun p : ℕ × TypStyle => (mkTextStyleTok p.1 p.2).1)
            (fun p : ℕ × TypStyle => (mkTextStyleTok p.1 p.2).2)
            (jsSlice 10 styles).enum [] (Or.inl hne)
        have hTe : ¬T.isEmpty := by simpa using hTne
        have hTpos : 0 < T.length := List.length_pos.mpr hTne
        by_cases hFe : F.isEmpty
        · simp [hFe, hTe, typTokCount]
          exact hTne
        · simp [hFe, hTe, typTokCount]
          exact fun _ => hTne

/-- The borders export has zero tokens exactly when the field is absent. -/
theorem exportBorders_count_zero_iff (x : Option BordersInput) :
    borderTokCount (exportBorders x) = 0 ↔ exportBorders x = none := by
  cases x with
  | none => simp [exportBorders, borderTokCount]
  | some bi =>
    obtain ⟨combosOpt⟩ := bi
    cases combosOpt with
    | none => simp [exportBorders, borderTokCount]
    | some combos =>
      unfold exportBorders
      dsimp only
      by_cases hc : combos.isEmpty
      · simp [hc, borderTokCount]
      · simp only [hc, Bool.false_eq_true, if_false]
        set st := (jsSlice 10 (combos.filter keepNonLowCombo)).foldl bordersStep
          (⟨[], [], [], []⟩ : BordersSt) with hst
        by_cases hW : st.widths.isEmpty <;> by_cases hC : st.colors.isEmpty
        · have hWnil : st.widths = [] := by simpa using hW
          have hCnil : st.colors = [] := by simpa using hC
          simp [hW, hC, hWnil, hCnil, borderTokCount]
        · simp [hW, hC, borderTokCount]
          simpa using hC
        · simp [hW, hC, borderTokCount]
          simpa using hW
        · simp [hW, hC, borderTokCount]
          exact fun _ => by simpa using hC

/-- Presence of an optional field is equivalent to a positive token count
when zero count characterizes absence. -/
theorem isSome_iff_pos_of_zero_iff {β : Type} (cnt : Option β → ℕ) (v : Option β)
    (hnone : cnt none = 0) (hiff : cnt v = 0 ↔ v = none) :
    v.isSome ↔ 0 < cnt v := by
  cases hv : v with
  | none => simp [hnone]
  | some o =>
    subst hv
    simp only [Option.isSome_some, true_iff]
    rcases Nat.eq_zero_or_pos (cnt (some o)) with h0 | hpos
    · exact absurd (hiff.mp h0) (by simp)
    · exact hpos

/-- C5: for every extraction result successfully converted, each category
field of the W3C document equals its exporter's output, and the field is
present if and only if that category produced at least one token — a
category with no qualifying observations yields an absent field, never an
empty placeholder. -/
theorem spec_c5 (hostname : String → Option String) (res : ExtractionResult)
    (t : W3CTokens) (h : toW3CFormat hostname res = Except.ok t) :
    (t.color = exportColors res.colors
      ∧ t.typography = exportTypography res.typography
      ∧ t.spacing = exportSpacing res.spacing
      ∧ t.radius = exportBorderRadius res.borderRadius
      ∧ t.border = exportBorders res.borders
      ∧ t.shadow = exportShadows res.shadows)
    ∧ (t.color.isSome ↔ 0 < colorTokCount t.color)
    ∧ (t.typography.isSome ↔ 0 < typTokCount t.typography)
    ∧ (t.spacing.isSome ↔ 0 < listTokCount t.spacing)
    ∧ (t.radius.isSome ↔ 0 < listTokCount t.radius)
    ∧ (t.border.isSome ↔ 0 < borderTokCount t.border)
    ∧ (t.shadow.isSome ↔ 0 < listTokCount t.shadow) := by
  have hfields : t.color = exportColors res.colors
      ∧ t.typography = exportTypography res.typography
      ∧ t.spacing = exportSpacing res.spacing
      ∧ t.radius = exportBorderRadius res.borderRadius
      ∧ t.border = exportBorders res.borders
      ∧ t.shadow = exportShadows res.shadows := by
    unfold toW3CFormat at h
    dsimp only at h
    split at h
    · exact absurd h (by simp)
    · injection h with h2
      subst h2
      exact ⟨rfl, rfl, rfl, rfl, rfl, rfl⟩
  obtain ⟨hc, ht, hs, hr, hb, hsh⟩ := hfields
  refine ⟨⟨hc, ht, hs, hr, hb, hsh⟩, ?_, ?_, ?_, ?_, ?_, ?_⟩
  · rw [hc]
    exact isSome_iff_pos_of_zero_iff colorTokCount _ rfl (exportColors_count_zero_iff _)
  · rw [ht]
    exact isSome_iff_pos_of_zero_iff typTokCount _ rfl (exportTypography_count_zero_iff _)
  · rw [hs]
    cases hfx : exportSpacing res.spacing with
    | none => simp [listTokCount]
    | some o =>
      simp only [Option.isSome_some, true_iff]
      exact exportSpacing_some_pos _ o hfx
  · rw [hr]
    cases hfx : exportBorderRadius res.borderRadius with
    | none => simp [listTokCount]
    | some o =>
      simp only [Option.isSome_some, true_iff]
      exact exportBorderRadius_some_pos _ o hfx
  · rw [hb]
    exact isSome_iff_pos_of_zero_iff borderTokCount _ rfl (exportBorders_count_zero_iff _)
  · rw [hsh]
    cases hfx : exportShadows res.shadows with
    | none => simp [listTokCount]
    | some o =>
      simp only [Option.isSome_some, true_iff]
      exact exportShadows_some_pos _ o hfx

/-- A hostname oracle for witnesses. -/
def hn0 : String → Option String := fun _ => some "example.com"

/-- A small extraction result with colours present and the other
categories absent. -/
def res0 : ExtractionResult :=
  { url := "https://www.example.com"
    extractedAt := "2026-10-11T00:00:00Z"
    logo := none
    colors := some ⟨some [⟨"rgb(1, 2, 3)", none, some 2, some "high"⟩], none⟩
    typography := none
    spacing := none
    borderRadius := none
    borders := none
    shadows := none }

/-- The W3C document produced for `res0`. -/
def tok0 : W3CTokens :=
  (toW3CFormat hn0 res0).toOption.getD ⟨"", "", "", none, none, none, none, none, none⟩

set_option maxRecDepth 16000 in
theorem spec_c5_witness :
    tok0.color = exportColors res0.colors
    ∧ (tok0.color.isSome ↔ 0 < colorTokCount tok0.color)
    ∧ (tok0.spacing.isSome ↔ 0 < listTokCount tok0.spacing) := by
  have h : toW3CFormat hn0 res0 = Except.ok tok0 := by with_unfolding_all rfl
  have hmain := spec_c5 hn0 res0 tok0 h
  exact ⟨hmain.1.1, hmain.2.1, hmain.2.2.2.1⟩
